import Mathlib

/-!
Shallow embedding of the `Mkcert` class of vite-plugin-mkcert
(packages/plugin/src/mkcert/index.ts) and of the collaborators it uses.

The certificate side (`getCertificate`, `createCertificate`, `getLatestHash`,
`regenerate`, `renew`, `install`) and the provisioning side (`checkMkcert`,
`updateMkcert`, `init`) are translated from the source.  The collaborators
whose source files are not part of the repository snapshot (`Record`,
`VersionManger`, `lib/util`) are modelled from the specification and marked
as such in their doc comments.

External effects (file existence checks, subprocess execution, downloads)
are supplied through explicit environment records, and every run returns the
resulting state together with the emitted log entries and the performed
actions, so that decisions such as "a regeneration happened" are observable.
-/

set_option autoImplicit false

namespace VitePluginMkcert

/-! Basic data model -/

/-- Modelled from the spec: the value of a strong deterministic content hash.
The spec fixes no algorithm ("any strong, deterministic content hash
satisfies the contract"), so the digest is represented abstractly by the
content it digests, which makes it collision-free; a missing or unreadable
file yields the distinguished value `unreadable`, different from every
digest of actual content. -/
inductive HashVal where
  | unreadable : HashVal
  | digest (content : String) : HashVal
deriving DecidableEq, Repr

/-- Pair of content hashes for the key file and the certificate file,
as stored in the persisted certificate record. -/
structure Hash where
  key : HashVal
  cert : HashVal
deriving DecidableEq, Repr

/-- Persisted certificate record: the hosts and the hash stored by the last
successful generation. -/
structure CertRecord where
  hosts : List String
  hash : Hash
deriving DecidableEq, Repr

/-- The pair of file contents returned by `install`. -/
structure Certificate where
  key : String
  cert : String
deriving DecidableEq, Repr

/-- Contents of the two fixed certificate file paths on disk;
`none` means the file does not exist (or is unreadable). -/
structure Disk where
  keyFile : Option String
  certFile : Option String
deriving DecidableEq, Repr

/-- KEY_FILE_PATH = resolvePath('certs/dev.key'). -/
def KEY_FILE_PATH : String := "certs/dev.key"

/-- CERT_FILE_PATH = resolvePath('certs/dev.pem'). -/
def CERT_FILE_PATH : String := "certs/dev.pem"

/-- mkcertSavedPath = resolvePath('mkcert') on a non-windows platform. -/
def mkcertSavedPath : String := "mkcert"

/-- Log entries emitted through `logger.info`, `logger.error` and the
package's `debug` channel. -/
inductive LogEntry where
  | info (msg : String) : LogEntry
  | error (msg : String) : LogEntry
  | debugMsg (msg : String) : LogEntry
deriving DecidableEq, Repr

/-- Observable external actions performed while creating a certificate. -/
inductive Action where
  | ensureDir (path : String) : Action
  | execCmd (cmd : String) : Action
deriving DecidableEq, Repr

/-- Outcome of running the external generation command: on success the
binary writes fresh contents into the key file and the certificate file;
otherwise the invocation rejects with an error message. -/
inductive ExecOutcome where
  | ok (newKey newCert : String) : ExecOutcome
  | err (msg : String) : ExecOutcome
deriving DecidableEq, Repr

def ExecOutcome.isErr : ExecOutcome → Bool
  | .ok _ _ => false
  | .err _ => true

/-- Environment of one `Mkcert` instance on the certificate side:
the configured options and the behaviour of the external world. -/
structure MkcertEnv where
  mkcertLocalPath : Option String
  localFileFound : Bool
  savedFileFound : Bool
  execRun : String → ExecOutcome

/-- Mutable state of the certificate side: the persisted record
(absent before the first successful generation) and the on-disk files. -/
structure MkcertState where
  record : Option CertRecord
  disk : Disk
deriving DecidableEq, Repr

/-! JavaScript string conveniences used by the source -/

/-- JavaScript truthiness of an optional string: `undefined` and the empty
string are falsy. -/
def jsTruthy : Option String → Bool
  | none => false
  | some s => s ≠ ""

/-- Rendering of an optional string inside a template literal:
an `undefined` value renders as the string "undefined". -/
def jsShow : Option String → String
  | none => "undefined"
  | some s => s

/-- JavaScript `a || b` on an optional string. -/
def jsOr (a : Option String) (b : String) : String :=
  match a with
  | none => b
  | some s => if s = "" then b else s

/-! Spec-modelled collaborators of the certificate side -/

/-- Modelled from the spec: `getHash` of `lib/util` computes the content
hash of a file; a missing or unreadable file hashes to a value that
"differs from any valid previous hash". -/
def getHash : Option String → HashVal
  | none => HashVal.unreadable
  | some content => HashVal.digest content

/-- Modelled from the spec: order-independent set equality of two host
lists ("set equality, order-independent"). -/
def hostSetEq (a b : List String) : Bool :=
  a.all (fun x => b.contains x) && b.all (fun x => a.contains x)

/-- Modelled from the spec: `Record.contains(hosts)` of the missing
`record.ts` holds when the requested hosts equal the persisted host set as
sets; an absent record matches nothing. -/
def recordContains : Option CertRecord → List String → Bool
  | none, _ => false
  | some r, hosts => hostSetEq hosts r.hosts

/-- Modelled from the spec: `Record.tamper(hash)` of the missing
`record.ts` holds when the given live hash differs from the persisted one;
with no persisted record any live hash counts as differing. -/
def recordTamper : Option CertRecord → Hash → Bool
  | none, _ => true
  | some r, h => r.hash ≠ h

/-- Modelled from the spec: rendering of `record.getHosts()` inside the
hosts-changed log message; an absent record renders as "undefined". -/
def recordHostsStr : Option CertRecord → String
  | none => "undefined"
  | some r => String.intercalate "," r.hosts

/-- Modelled from the spec: `prettyLog` of the missing `lib/util`,
a deterministic rendering of a hash value. -/
def prettyHashVal : HashVal → String
  | HashVal.unreadable => "unreadable"
  | HashVal.digest c => "digest(" ++ c ++ ")"

/-- Modelled from the spec: `prettyLog` applied to a hash pair. -/
def prettyLog (h : Hash) : String :=
  "(key: " ++ prettyHashVal h.key ++ ", cert: " ++ prettyHashVal h.cert ++ ")"

/-- Modelled from the spec: `prettyLog` of `record.getHash()`, rendering an
absent record's hash as "undefined". -/
def recordHashStr : Option CertRecord → String
  | none => "undefined"
  | some r => prettyLog r.hash

/-! The certificate side of the `Mkcert` class, translated from the source -/

/-- Mkcert.checkMkcert: when a local path is configured its existence is
checked and an error diagnostic is emitted (unconditionally, as in the
source); otherwise the managed saved path is checked. -/
def checkMkcert (localPath : Option String) (localFound savedFound : Bool) :
    Bool × List LogEntry :=
  if jsTruthy localPath then
    (localFound,
      [LogEntry.error
        (jsShow localPath ++ " does not exist, please check the mkcertPath paramter")])
  else
    (savedFound, [])

/-- Mkcert.getMkcertBinnary: the local path (falling back to the saved
path) when `checkMkcert` reports existence, `undefined` otherwise. -/
def getMkcertBinnary (env : MkcertEnv) : Option String × List LogEntry :=
  let r := checkMkcert env.mkcertLocalPath env.localFileFound env.savedFileFound
  (if r.1 then some (jsOr env.mkcertLocalPath mkcertSavedPath) else none, r.2)

/-- Mkcert.getCertificate: read both certificate files; a missing file makes
the read reject. -/
def getCertificate (d : Disk) : Except String Certificate :=
  match d.keyFile with
  | none => Except.error ("ENOENT: no such file, " ++ KEY_FILE_PATH)
  | some k =>
    match d.certFile with
    | none => Except.error ("ENOENT: no such file, " ++ CERT_FILE_PATH)
    | some c => Except.ok { key := k, cert := c }

/-- Command string built by Mkcert.createCertificate. -/
def buildCmd (bin : Option String) (hostnames : List String) : String :=
  jsShow bin ++ " -install -key-file " ++ KEY_FILE_PATH ++
    " -cert-file " ++ CERT_FILE_PATH ++ " " ++ String.intercalate " " hostnames

/-- Result of one `createCertificate` run: the disk afterwards, the logs,
the actions performed, and the error if the command rejected. -/
structure CreateResult where
  disk : Disk
  logs : List LogEntry
  actions : List Action
  err : Option String
deriving Repr

/-- Mkcert.createCertificate: resolve the binary, ensure the parent
directories of both file paths exist, run the generation command, and log
where the certificate was saved.  When the binary is unavailable a debug
diagnostic is emitted and the command is attempted anyway. -/
def createCertificate (env : MkcertEnv) (d : Disk) (hostnames : List String) :
    CreateResult :=
  let hostlist := String.intercalate " " hostnames
  let bin := getMkcertBinnary env
  let logs :=
    bin.2 ++
      (if bin.1.isNone then
        [LogEntry.debugMsg
          ("Mkcert does not exist, unable to generate certificate for " ++ hostlist)]
      else [])
  let cmd := buildCmd bin.1 hostnames
  let acts := [Action.ensureDir KEY_FILE_PATH, Action.ensureDir CERT_FILE_PATH,
    Action.execCmd cmd]
  match env.execRun cmd with
  | ExecOutcome.err e =>
    { disk := d, logs := logs, actions := acts, err := some e }
  | ExecOutcome.ok k c =>
    { disk := { keyFile := some k, certFile := some c },
      logs := logs ++
        [LogEntry.info
          ("The certificate is saved in:\n" ++ KEY_FILE_PATH ++ "\n" ++ CERT_FILE_PATH)],
      actions := acts, err := none }

/-- Mkcert.getLatestHash: hash the two certificate files on disk. -/
def getLatestHash (d : Disk) : Hash :=
  { key := getHash d.keyFile, cert := getHash d.certFile }

/-- Result of one `renew` (or `regenerate`, or `install`) run. -/
structure RenewResult where
  st : MkcertState
  logs : List LogEntry
  actions : List Action
  err : Option String
deriving Repr

/-- Mkcert.regenerate: create the certificate, then hash the freshly
written files and persist the new record; when the command rejects the
record keeps its previous value and the error propagates. -/
def regenerate (env : MkcertEnv) (st : MkcertState) (hosts : List String) :
    RenewResult :=
  let cr := createCertificate env st.disk hosts
  match cr.err with
  | some e =>
    { st := { record := st.record, disk := cr.disk },
      logs := cr.logs, actions := cr.actions, err := some e }
  | none =>
    let hash := getLatestHash cr.disk
    { st := { record := some { hosts := hosts, hash := hash }, disk := cr.disk },
      logs := cr.logs, actions := cr.actions, err := none }

/-- Content of the hosts-changed info log of Mkcert.renew. -/
def hostsChangedMsg (record : Option CertRecord) (hosts : List String) : String :=
  "The hosts changed from [" ++ recordHostsStr record ++ "] to [" ++
    String.intercalate "," hosts ++ "], start regenerate certificate"

/-- Content of the hash-changed info log of Mkcert.renew. -/
def hashChangedMsg (record : Option CertRecord) (hash : Hash) : String :=
  "The hash changed from " ++ recordHashStr record ++ " to " ++ prettyLog hash ++
    ", start regenerate certificate"

/-- Mkcert.renew: regenerate when the requested hosts differ from the
record's host set; otherwise regenerate when the live hash differs from the
record's hash; otherwise skip with a debug log. -/
def renew (env : MkcertEnv) (st : MkcertState) (hosts : List String) :
    RenewResult :=
  if !(recordContains st.record hosts) then
    let r := regenerate env st hosts
    { r with logs := LogEntry.info (hostsChangedMsg st.record hosts) :: r.logs }
  else
    let hash := getLatestHash st.disk
    if recordTamper st.record hash then
      let r := regenerate env st hosts
      { r with logs := LogEntry.info (hashChangedMsg st.record hash) :: r.logs }
    else
      { st := st,
        logs := [LogEntry.debugMsg
          "Neither hosts nor hash has changed, skip regenerate certificate"],
        actions := [], err := none }

/-- Result of one `install` run: the state afterwards, the emitted logs and
actions, and either the certificate read back from disk or the error. -/
structure InstallResult where
  st : MkcertState
  logs : List LogEntry
  actions : List Action
  result : Except String Certificate
deriving Repr

/-- Mkcert.install: renew when the host list is non-empty, then read the
certificate files back from disk. -/
def install (env : MkcertEnv) (st : MkcertState) (hosts : List String) :
    InstallResult :=
  let r :=
    if hosts.length ≠ 0 then renew env st hosts
    else { st := st, logs := [], actions := [], err := none }
  match r.err with
  | some e =>
    { st := r.st, logs := r.logs, actions := r.actions,
      result := Except.error e }
  | none =>
    { st := r.st, logs := r.logs, actions := r.actions,
      result := getCertificate r.st.disk }

/-- Number of external-command invocations in an action trace; each
regeneration performs exactly one. -/
def execCount (l : List Action) : Nat :=
  (l.filter fun a => match a with
    | Action.execCmd _ => true
    | _ => false).length

/-! Provisioning side: version management and binary download -/

/-- Modelled from the spec: a semantic version with numeric fields
major, minor and patch. -/
structure Version where
  major : Nat
  minor : Nat
  patch : Nat
deriving DecidableEq, Repr

/-- Split a character list into the dot-separated groups. -/
def splitDots : List Char → List (List Char)
  | [] => [[]]
  | c :: rest =>
    match splitDots rest with
    | [] => [[]]
    | g :: gs => if c = '.' then [] :: g :: gs else (c :: g) :: gs

/-- Numeric value of a non-empty list of decimal digits, if it is one. -/
def charsToNat : List Char → Option Nat
  | [] => none
  | cs =>
    if cs.all (fun c => c.isDigit) then
      some (cs.foldl (fun n c => n * 10 + (c.toNat - 48)) 0)
    else none

/-- Modelled from the spec: parse a version string of the form
"major.minor.patch"; an unparsable string yields nothing and is treated as
"unknown", never crashing the comparison. -/
def parseVersion (s : String) : Option Version :=
  match (splitDots s.toList).map charsToNat with
  | [some a, some b, some c] => some { major := a, minor := b, patch := c }
  | _ => none

/-- Modelled from the spec: lexicographic-numeric comparison per field. -/
def versionGt (a b : Version) : Bool :=
  if a.major ≠ b.major then decide (a.major > b.major)
  else if a.minor ≠ b.minor then decide (a.minor > b.minor)
  else decide (a.patch > b.patch)

/-- Output of the version comparison. -/
structure VersionInfo where
  currentVersion : String
  nextVersion : String
  shouldUpdate : Bool
  breakingChange : Bool
deriving DecidableEq, Repr

/-- Latest available binary version and download location, produced by the
source provider; may be absent when the source is unreachable. -/
structure SourceInfo where
  version : String
  downloadUrl : String
deriving DecidableEq, Repr

/-- Modelled from the spec: `VersionManger.compare(latestVersionString)` of
the missing `version.ts`.  The current version is read from the version
store; an unparsable latest string is not an upgrade; `shouldUpdate` is
"latest > current", or true when the current version is absent or unknown;
`breakingChange` is `shouldUpdate` together with differing majors. -/
def compare (store : Option String) (latest : String) : VersionInfo :=
  let currentStr :=
    match store with
    | none => "unknown"
    | some s => s
  match parseVersion latest with
  | none =>
    { currentVersion := currentStr, nextVersion := latest,
      shouldUpdate := false, breakingChange := false }
  | some l =>
    match store.bind parseVersion with
    | none =>
      { currentVersion := currentStr, nextVersion := latest,
        shouldUpdate := true, breakingChange := false }
    | some c =>
      let su := versionGt l c
      { currentVersion := currentStr, nextVersion := latest,
        shouldUpdate := su, breakingChange := su && decide (l.major ≠ c.major) }

/-- Configured download source kind: the two built-in variants or a
caller-supplied custom source object. -/
inductive SourceType where
  | github : SourceType
  | coding : SourceType
  | custom : SourceType
deriving DecidableEq, Repr

/-- Environment of the provisioning side: configured options and the
behaviour of the source provider and the downloader. -/
structure ProvEnv where
  sourceType : SourceType
  sourceInfo : Option SourceInfo
  downloadOk : Bool
  autoUpgrade : Bool
  mkcertLocalPath : Option String
  localFileFound : Bool
deriving DecidableEq, Repr

/-- Mutable provisioning state: presence of the managed binary and the
persisted version store. -/
structure ProvState where
  savedFileFound : Bool
  versionStore : Option String
deriving DecidableEq, Repr

/-- Result of one `updateMkcert` (or `init`) run; `downloaded` records
whether a download was attempted. -/
structure UpdateResult where
  st : ProvState
  logs : List LogEntry
  downloaded : Bool
  err : Option String
deriving DecidableEq, Repr

/-- Debug diagnostics emitted by `updateMkcert` when the source provider
returned no source information. -/
def sourceAbsentLogs (t : SourceType) : List LogEntry :=
  (match t with
   | SourceType.github =>
     [LogEntry.debugMsg "Failed to request mkcert information, please check your network",
      LogEntry.debugMsg
        "If you are a user in china, maybe you should set \"source\" paramter to \"coding\""]
   | SourceType.coding =>
     [LogEntry.debugMsg "Failed to request mkcert information, please check your network"]
   | SourceType.custom =>
     [LogEntry.debugMsg
       "Please check your custom \"source\", it seems to return invalid result"]) ++
  [LogEntry.debugMsg "Can not get mkcert information, update skipped"]

/-- Debug diagnostic naming both versions for a deferred breaking change. -/
def breakingChangeMsg (vi : VersionInfo) : String :=
  "The current version of mkcert is " ++ vi.currentVersion ++
    ", and the latest version is " ++ vi.nextVersion ++
    ", there may be some breaking changes, update skipped"

/-- Debug diagnostic announcing the update that is about to happen. -/
def willUpdateMsg (vi : VersionInfo) : String :=
  "The current version of mkcert is " ++ vi.currentVersion ++
    ", and the latest version is " ++ vi.nextVersion ++
    ", mkcert will be updated"

/-- Mkcert.updateMkcert: fetch the source information (skipping with
diagnostics when it is absent); when the binary exists compare versions and
skip on no-update or on a breaking change, otherwise download and persist
the compared next version; when the binary does not exist always download
and persist the source-reported version.  A failing download propagates. -/
def updateMkcert (env : ProvEnv) (st : ProvState) (mkcertExist : Bool) :
    UpdateResult :=
  match env.sourceInfo with
  | none =>
    { st := st, logs := sourceAbsentLogs env.sourceType,
      downloaded := false, err := none }
  | some si =>
    if mkcertExist then
      let vi := compare st.versionStore si.version
      if !vi.shouldUpdate then
        { st := st,
          logs := [LogEntry.debugMsg "Mkcert is kept latest version, update skipped"],
          downloaded := false, err := none }
      else if vi.breakingChange then
        { st := st, logs := [LogEntry.debugMsg (breakingChangeMsg vi)],
          downloaded := false, err := none }
      else
        if env.downloadOk then
          { st := { savedFileFound := true, versionStore := some vi.nextVersion },
            logs := [LogEntry.debugMsg (willUpdateMsg vi)],
            downloaded := true, err := none }
        else
          { st := st, logs := [LogEntry.debugMsg (willUpdateMsg vi)],
            downloaded := true, err := some "download failed" }
    else
      if env.downloadOk then
        { st := { savedFileFound := true, versionStore := some si.version },
          logs := [LogEntry.debugMsg "mkcert does not exist, download it now"],
          downloaded := true, err := none }
      else
        { st := st,
          logs := [LogEntry.debugMsg "mkcert does not exist, download it now"],
          downloaded := true, err := some "download failed" }

/-- Mkcert.init: initialize the config, check binary presence, and run
`updateMkcert` when auto-upgrade is requested or the binary is absent. -/
def init (env : ProvEnv) (st : ProvState) : UpdateResult :=
  let chk := checkMkcert env.mkcertLocalPath env.localFileFound st.savedFileFound
  if env.autoUpgrade || !chk.1 then
    let u := updateMkcert env st chk.1
    { st := u.st, logs := chk.2 ++ u.logs, downloaded := u.downloaded, err := u.err }
  else
    { st := st, logs := chk.2, downloaded := false, err := none }

/-! Concrete instances used to witness the theorems below -/

/-- Sample environment: no local path configured, managed binary present,
and an external command that always succeeds. -/
def env0 : MkcertEnv :=
  { mkcertLocalPath := none, localFileFound := false, savedFileFound := true,
    execRun := fun _ => ExecOutcome.ok "newkey" "newcert" }

/-- Sample environment whose external command always rejects. -/
def envFail : MkcertEnv :=
  { mkcertLocalPath := none, localFileFound := false, savedFileFound := true,
    execRun := fun _ => ExecOutcome.err "spawn failure" }

/-- Sample environment with no binary available anywhere. -/
def envNoBin : MkcertEnv :=
  { mkcertLocalPath := none, localFileFound := false, savedFileFound := false,
    execRun := fun _ => ExecOutcome.err "command not found" }

/-- Sample disk with both certificate files present. -/
def disk0 : Disk := { keyFile := some "k0", certFile := some "c0" }

/-- Sample state with no persisted record yet. -/
def st0 : MkcertState := { record := none, disk := disk0 }

/-- Sample state whose record matches the disk and the host "localhost". -/
def stClean : MkcertState :=
  { record := some { hosts := ["localhost"], hash := getLatestHash disk0 },
    disk := disk0 }

/-- Sample disk whose key file was altered out-of-band. -/
def diskTampered : Disk := { keyFile := some "evil", certFile := some "newcert" }

/-- Sample provisioning environment whose source offers a new major
version. -/
def provEnvBrk : ProvEnv :=
  { sourceType := SourceType.github,
    sourceInfo := some { version := "2.0.0", downloadUrl := "https://example.com/mkcert" },
    downloadOk := true, autoUpgrade := true,
    mkcertLocalPath := none, localFileFound := false }

/-- Sample provisioning state with an installed binary at version 1.0.0. -/
def provStBrk : ProvState := { savedFileFound := true, versionStore := some "1.0.0" }

/-- Sample provisioning environment whose source provider is unreachable. -/
def provEnvAbsent : ProvEnv :=
  { sourceType := SourceType.github, sourceInfo := none,
    downloadOk := true, autoUpgrade := false,
    mkcertLocalPath := none, localFileFound := false }

/-- Sample provisioning environment with a reachable source. -/
def provEnvOk : ProvEnv :=
  { sourceType := SourceType.github,
    sourceInfo := some { version := "1.4.4", downloadUrl := "https://example.com/mkcert" },
    downloadOk := true, autoUpgrade := false,
    mkcertLocalPath := none, localFileFound := false }

/-- Sample provisioning state with no binary and no stored version. -/
def provSt0 : ProvState := { savedFileFound := false, versionStore := none }

/-! Helper lemmas -/

theorem hostSetEq_refl (l : List String) : hostSetEq l l = true := by
  simp [hostSetEq, List.all_eq_true]

theorem hostSetEq_true_iff (a b : List String) :
    hostSetEq a b = true ↔ (∀ x, x ∈ a ↔ x ∈ b) := by
  simp only [hostSetEq, Bool.and_eq_true, List.all_eq_true, List.elem_iff]
  constructor
  · rintro ⟨h1, h2⟩ x
    exact ⟨fun hx => h1 x hx, fun hx => h2 x hx⟩
  · intro h
    exact ⟨fun x hx => (h x).mp hx, fun x hx => (h x).mpr hx⟩

theorem createCertificate_actions (env : MkcertEnv) (d : Disk)
    (hostnames : List String) :
    (createCertificate env d hostnames).actions =
      [Action.ensureDir KEY_FILE_PATH, Action.ensureDir CERT_FILE_PATH,
       Action.execCmd (buildCmd (getMkcertBinnary env).1 hostnames)] := by
  unfold createCertificate
  cases h : env.execRun (buildCmd (getMkcertBinnary env).1 hostnames) <;> simp [h]

theorem regenerate_actions (env : MkcertEnv) (st : MkcertState)
    (hosts : List String) :
    (regenerate env st hosts).actions = (createCertificate env st.disk hosts).actions := by
  unfold regenerate
  cases h : (createCertificate env st.disk hosts).err <;> simp [h]

theorem regenerate_execCount (env : MkcertEnv) (st : MkcertState)
    (hosts : List String) :
    execCount (regenerate env st hosts).actions = 1 := by
  rw [regenerate_actions, createCertificate_actions]
  rfl

theorem renew_clean (env : MkcertEnv) (st : MkcertState) (hosts : List String)
    (h1 : recordContains st.record hosts = true)
    (h2 : recordTamper st.record (getLatestHash st.disk) = false) :
    renew env st hosts =
      { st := st,
        logs := [LogEntry.debugMsg
          "Neither hosts nor hash has changed, skip regenerate certificate"],
        actions := [], err := none } := by
  simp [renew, h1, h2]

theorem renew_hosts_mismatch (env : MkcertEnv) (st : MkcertState)
    (hosts : List String) (h : recordContains st.record hosts = false) :
    renew env st hosts =
      { st := (regenerate env st hosts).st,
        logs := LogEntry.info (hostsChangedMsg st.record hosts) ::
          (regenerate env st hosts).logs,
        actions := (regenerate env st hosts).actions,
        err := (regenerate env st hosts).err } := by
  simp [renew, h]

theorem renew_tamper (env : MkcertEnv) (st : MkcertState) (hosts : List String)
    (h1 : recordContains st.record hosts = true)
    (h2 : recordTamper st.record (getLatestHash st.disk) = true) :
    renew env st hosts =
      { st := (regenerate env st hosts).st,
        logs := LogEntry.info (hashChangedMsg st.record (getLatestHash st.disk)) ::
          (regenerate env st hosts).logs,
        actions := (regenerate env st hosts).actions,
        err := (regenerate env st hosts).err } := by
  simp [renew, h1, h2]

theorem install_nonempty (env : MkcertEnv) (st : MkcertState)
    (hosts : List String) (hne : hosts ≠ []) :
    install env st hosts =
      { st := (renew env st hosts).st, logs := (renew env st hosts).logs,
        actions := (renew env st hosts).actions,
        result :=
          match (renew env st hosts).err with
          | some e => Except.error e
          | none => getCertificate (renew env st hosts).st.disk } := by
  have hlen : hosts.length ≠ 0 := fun h => hne (List.length_eq_zero.mp h)
  unfold install
  rw [if_pos hlen]
  cases h : (renew env st hosts).err <;> simp [h]

theorem regenerate_ok (env : MkcertEnv) (st : MkcertState) (hosts : List String)
    (h : (regenerate env st hosts).err = none) :
    (regenerate env st hosts).st =
      { record :=
          some { hosts := hosts,
                 hash := getLatestHash (createCertificate env st.disk hosts).disk },
        disk := (createCertificate env st.disk hosts).disk } := by
  cases hcr : (createCertificate env st.disk hosts).err with
  | some e => simp [regenerate, hcr] at h
  | none => simp [regenerate, hcr]

theorem renew_execCount_le_one (env : MkcertEnv) (st : MkcertState)
    (hosts : List String) :
    execCount (renew env st hosts).actions ≤ 1 := by
  cases hc : recordContains st.record hosts with
  | false =>
    rw [renew_hosts_mismatch env st hosts hc]
    simp [regenerate_execCount]
  | true =>
    cases ht : recordTamper st.record (getLatestHash st.disk) with
    | true =>
      rw [renew_tamper env st hosts hc ht]
      simp [regenerate_execCount]
    | false =>
      rw [renew_clean env st hosts hc ht]
      simp [execCount]

theorem install_st_eq (env : MkcertEnv) (st : MkcertState)
    (hosts : List String) (hne : hosts ≠ []) :
    (install env st hosts).st = (renew env st hosts).st := by
  rw [install_nonempty env st hosts hne]

theorem install_actions_eq (env : MkcertEnv) (st : MkcertState)
    (hosts : List String) (hne : hosts ≠ []) :
    (install env st hosts).actions = (renew env st hosts).actions := by
  rw [install_nonempty env st hosts hne]

theorem install_ok_err_none (env : MkcertEnv) (st : MkcertState)
    (hosts : List String) (hne : hosts ≠ []) (c : Certificate)
    (hok : (install env st hosts).result = Except.ok c) :
    (renew env st hosts).err = none := by
  rw [install_nonempty env st hosts hne] at hok
  dsimp only at hok
  cases he : (renew env st hosts).err with
  | none => rfl
  | some e => rw [he] at hok; simp at hok

theorem install_ok_result (env : MkcertEnv) (st : MkcertState)
    (hosts : List String) (hne : hosts ≠ [])
    (herr : (renew env st hosts).err = none) :
    (install env st hosts).result = getCertificate (install env st hosts).st.disk := by
  rw [install_nonempty env st hosts hne]
  dsimp only
  rw [herr]

theorem renew_ok_clean (env : MkcertEnv) (st : MkcertState)
    (hosts : List String) (herr : (renew env st hosts).err = none) :
    recordContains (renew env st hosts).st.record hosts = true ∧
    recordTamper (renew env st hosts).st.record
      (getLatestHash (renew env st hosts).st.disk) = false := by
  cases hc : recordContains st.record hosts with
  | false =>
    rw [renew_hosts_mismatch env st hosts hc] at herr ⊢
    dsimp only at herr ⊢
    rw [regenerate_ok env st hosts herr]
    constructor
    · simp [recordContains, hostSetEq_refl]
    · simp [recordTamper]
  | true =>
    cases ht : recordTamper st.record (getLatestHash st.disk) with
    | true =>
      rw [renew_tamper env st hosts hc ht] at herr ⊢
      dsimp only at herr ⊢
      rw [regenerate_ok env st hosts herr]
      constructor
      · simp [recordContains, hostSetEq_refl]
      · simp [recordTamper]
    | false =>
      rw [renew_clean env st hosts hc ht]
      exact ⟨hc, ht⟩

theorem getHash_inj (a b : Option String) (h : getHash a = getHash b) : a = b := by
  cases a <;> cases b <;> simp_all [getHash]

theorem getLatestHash_inj (d1 d2 : Disk) (h : getLatestHash d1 = getLatestHash d2) :
    d1 = d2 := by
  cases d1 with
  | mk k1 c1 =>
    cases d2 with
    | mk k2 c2 =>
      simp only [getLatestHash, Hash.mk.injEq] at h
      simp [getHash_inj _ _ h.1, getHash_inj _ _ h.2]

theorem install_logs_eq (env : MkcertEnv) (st : MkcertState)
    (hosts : List String) (hne : hosts ≠ []) :
    (install env st hosts).logs = (renew env st hosts).logs := by
  rw [install_nonempty env st hosts hne]

theorem createCertificate_fail (env : MkcertEnv) (d : Disk)
    (hostnames : List String) (e : String)
    (h : env.execRun (buildCmd (getMkcertBinnary env).1 hostnames) = ExecOutcome.err e) :
    (createCertificate env d hostnames).disk = d ∧
    (createCertificate env d hostnames).err = some e := by
  unfold createCertificate
  simp [h]

theorem regenerate_fail (env : MkcertEnv) (st : MkcertState)
    (hosts : List String) (e : String)
    (h : env.execRun (buildCmd (getMkcertBinnary env).1 hosts) = ExecOutcome.err e) :
    (regenerate env st hosts).st = st ∧ (regenerate env st hosts).err = some e := by
  have hc := createCertificate_fail env st.disk hosts e h
  constructor
  · simp [regenerate, hc.2, hc.1]
  · simp [regenerate, hc.2]

/-! Claim theorems -/

/-- C3: a call `install([])` performs no renew decision logic at all — no
actions, no logs, the state is untouched — and returns the certificate
content currently stored at the two fixed on-disk paths, failing with a
read error when those files do not exist. -/
theorem install_empty_hosts_no_regen (env : MkcertEnv) (st : MkcertState) :
    (install env st []).actions = [] ∧
    (install env st []).logs = [] ∧
    (install env st []).st = st ∧
    (install env st []).result = getCertificate st.disk ∧
    (∀ k c, st.disk.keyFile = some k → st.disk.certFile = some c →
      (install env st []).result = Except.ok { key := k, cert := c }) ∧
    (st.disk.keyFile = none ∨ st.disk.certFile = none →
      ∃ e, (install env st []).result = Except.error e) := by
  refine ⟨by simp [install], by simp [install], by simp [install], by simp [install], ?_, ?_⟩
  · intro k c hk hc
    simp [install, getCertificate, hk, hc]
  · intro h
    rcases h with h | h
    · exact ⟨"ENOENT: no such file, " ++ KEY_FILE_PATH,
        by simp [install, getCertificate, h]⟩
    · cases hk : st.disk.keyFile with
      | none => exact ⟨"ENOENT: no such file, " ++ KEY_FILE_PATH,
          by simp [install, getCertificate, hk]⟩
      | some k => exact ⟨"ENOENT: no such file, " ++ CERT_FILE_PATH,
          by simp [install, getCertificate, hk, h]⟩

/-- Witness for C3 at a concrete state with both files present. -/
theorem install_empty_hosts_no_regen_witness :
    (install env0 st0 []).result = Except.ok { key := "k0", cert := "c0" } :=
  (install_empty_hosts_no_regen env0 st0).2.2.2.2.1 "k0" "c0" rfl rfl

/-- C10: whenever a caller-supplied local binary path is configured (and,
as everywhere in the source, non-empty), `checkMkcert` emits the
error-level diagnostic stating that the path does not exist, regardless of
whether the existence check succeeded; the returned existence flag is the
check's actual result, showing the diagnostic is not conditioned on it. -/
theorem checkMkcert_error_log_unconditional (lp : String) (found saved : Bool)
    (hlp : lp ≠ "") :
    (checkMkcert (some lp) found saved).2 =
      [LogEntry.error (lp ++ " does not exist, please check the mkcertPath paramter")] ∧
    (checkMkcert (some lp) found saved).1 = found := by
  simp [checkMkcert, jsTruthy, jsShow, hlp]

/-- Witness for C10: the local binary does exist (`found = true`), yet the
does-not-exist error is still logged. -/
theorem checkMkcert_error_log_unconditional_witness :
    (checkMkcert (some "/usr/local/bin/mkcert") true true).2 =
      [LogEntry.error
        ("/usr/local/bin/mkcert" ++ " does not exist, please check the mkcertPath paramter")] ∧
    (checkMkcert (some "/usr/local/bin/mkcert") true true).1 = true :=
  checkMkcert_error_log_unconditional "/usr/local/bin/mkcert" true true (by decide)

/-- C1: for a non-empty host list, `install` regenerates the certificate
if and only if the requested hosts differ (as a set) from the persisted
record's host set or the live content hash of the two on-disk files differs
from the persisted hash; each call regenerates at most once; when neither
check matches, the state is untouched and the on-disk certificate is
returned unchanged; and the two checks run in order — a host-set mismatch
is reported first, the hash mismatch only when the host sets agree. -/
theorem install_regenerates_iff (env : MkcertEnv) (st : MkcertState)
    (hosts : List String) (hne : hosts ≠ []) :
    (execCount (install env st hosts).actions = 0 ↔
      ∃ r, st.record = some r ∧ (∀ x, x ∈ hosts ↔ x ∈ r.hosts) ∧
        getLatestHash st.disk = r.hash) ∧
    execCount (install env st hosts).actions ≤ 1 ∧
    (execCount (install env st hosts).actions = 0 →
      (install env st hosts).st = st ∧ (install env st hosts).actions = [] ∧
      (install env st hosts).result = getCertificate st.disk) ∧
    (recordContains st.record hosts = false →
      (install env st hosts).logs.head? =
        some (LogEntry.info (hostsChangedMsg st.record hosts))) ∧
    (recordContains st.record hosts = true →
      recordTamper st.record (getLatestHash st.disk) = true →
      (install env st hosts).logs.head? =
        some (LogEntry.info (hashChangedMsg st.record (getLatestHash st.disk)))) := by
  rw [install_nonempty env st hosts hne]
  cases hc : recordContains st.record hosts with
  | false =>
    rw [renew_hosts_mismatch env st hosts hc]
    refine ⟨?_, ?_, ?_, ?_, ?_⟩
    · simp only [regenerate_execCount]
      constructor
      · intro h
        exact absurd h one_ne_zero
      · rintro ⟨r, hr, hset, hh⟩
        rw [hr] at hc
        simp only [recordContains] at hc
        rw [(hostSetEq_true_iff hosts r.hosts).mpr hset] at hc
        exact absurd hc (by simp)
    · simp [regenerate_execCount]
    · intro h
      rw [regenerate_execCount] at h
      exact absurd h one_ne_zero
    · intro _
      rfl
    · intro h
      exact absurd h (by simp [hc])
  | true =>
    cases ht : recordTamper st.record (getLatestHash st.disk) with
    | true =>
      rw [renew_tamper env st hosts hc ht]
      refine ⟨?_, ?_, ?_, ?_, ?_⟩
      · simp only [regenerate_execCount]
        constructor
        · intro h
          exact absurd h one_ne_zero
        · rintro ⟨r, hr, hset, hh⟩
          rw [hr] at ht
          simp [recordTamper, hh] at ht
      · simp [regenerate_execCount]
      · intro h
        rw [regenerate_execCount] at h
        exact absurd h one_ne_zero
      · intro h
        exact absurd h (by simp [hc])
      · intro _ _
        rfl
    | false =>
      rw [renew_clean env st hosts hc ht]
      refine ⟨?_, ?_, ?_, ?_, ?_⟩
      · simp only [execCount, List.filter_nil, List.length_nil, true_iff]
        cases hr : st.record with
        | none => rw [hr] at hc; simp [recordContains] at hc
        | some r =>
          rw [hr] at hc ht
          simp only [recordContains] at hc
          have hhash : r.hash = getLatestHash st.disk := by
            simpa [recordTamper] using ht
          exact ⟨r, rfl, (hostSetEq_true_iff hosts r.hosts).mp hc, hhash.symm⟩
      · simp [execCount]
      · intro _
        exact ⟨rfl, rfl, rfl⟩
      · intro h
        exact absurd h (by simp [hc])
      · intro _ h
        exact absurd h (by simp [ht])

/-- Witness for C1: a state whose record matches both the requested hosts
and the on-disk hash triggers no regeneration. -/
theorem install_regenerates_iff_witness :
    execCount (install env0 stClean ["localhost"]).actions = 0 :=
  (install_regenerates_iff env0 stClean ["localhost"] (by decide)).1.mpr
    ⟨{ hosts := ["localhost"], hash := getLatestHash disk0 }, rfl,
      fun _ => Iff.rfl, rfl⟩

/-- C2: calling `install` twice in succession with the same non-empty host
list and no external modification between the calls regenerates at most
once: the first call regenerates at most once, and the second call performs
no regeneration, leaves the state unchanged, and returns the same
certificate. -/
theorem install_second_call_no_regen (env : MkcertEnv) (st : MkcertState)
    (hosts : List String) (c : Certificate) (hne : hosts ≠ [])
    (hok : (install env st hosts).result = Except.ok c) :
    execCount (install env st hosts).actions ≤ 1 ∧
    execCount (install env (install env st hosts).st hosts).actions = 0 ∧
    (install env (install env st hosts).st hosts).st = (install env st hosts).st ∧
    (install env (install env st hosts).st hosts).result = Except.ok c := by
  have herr := install_ok_err_none env st hosts hne c hok
  have hclean := renew_ok_clean env st hosts herr
  have hst := install_st_eq env st hosts hne
  rw [← hst] at hclean
  have h2 : renew env (install env st hosts).st hosts =
      { st := (install env st hosts).st,
        logs := [LogEntry.debugMsg
          "Neither hosts nor hash has changed, skip regenerate certificate"],
        actions := [], err := none } :=
    renew_clean env (install env st hosts).st hosts hclean.1 hclean.2
  refine ⟨?_, ?_, ?_, ?_⟩
  · rw [install_actions_eq env st hosts hne]
    exact renew_execCount_le_one env st hosts
  · rw [install_actions_eq env (install env st hosts).st hosts hne, h2]
    simp [execCount]
  · rw [install_st_eq env (install env st hosts).st hosts hne, h2]
  · rw [install_nonempty env (install env st hosts).st hosts hne]
    dsimp only
    rw [h2]
    have hres := install_ok_result env st hosts hne herr
    rw [hok] at hres
    exact hres.symm

/-- Witness for C2: a first `install` from a record-less state regenerates
and the immediately following identical call does not. -/
theorem install_second_call_no_regen_witness :
    execCount (install env0 (install env0 st0 ["localhost"]).st ["localhost"]).actions = 0 :=
  (install_second_call_no_regen env0 st0 ["localhost"]
    { key := "newkey", cert := "newcert" } (by decide) (by rfl)).2.1

/-- C4: after a successful `install(H)`, if the content of the on-disk
certificate files is altered externally (any change of either file, which
changes its content hash), a second `install` with the same `H` detects the
mismatch against the persisted record through the hash check — its first
log is the hash-changed message — and regenerates. -/
theorem install_tamper_regenerates (env : MkcertEnv) (st : MkcertState)
    (hosts : List String) (c : Certificate) (d2 : Disk) (hne : hosts ≠ [])
    (hok : (install env st hosts).result = Except.ok c)
    (hdiff : d2 ≠ (install env st hosts).st.disk) :
    0 < execCount (install env
      { record := (install env st hosts).st.record, disk := d2 } hosts).actions ∧
    (install env
      { record := (install env st hosts).st.record, disk := d2 } hosts).logs.head? =
      some (LogEntry.info
        (hashChangedMsg (install env st hosts).st.record (getLatestHash d2))) := by
  have herr := install_ok_err_none env st hosts hne c hok
  have hclean := renew_ok_clean env st hosts herr
  rw [← install_st_eq env st hosts hne] at hclean
  have hcont2 : recordContains
      (MkcertState.mk (install env st hosts).st.record d2).record hosts = true :=
    hclean.1
  have ht2 : recordTamper
      (MkcertState.mk (install env st hosts).st.record d2).record
      (getLatestHash (MkcertState.mk (install env st hosts).st.record d2).disk) =
      true := by
    cases hr : (install env st hosts).st.record with
    | none =>
      rw [hr] at hclean
      simp [recordTamper] at hclean
    | some r =>
      rw [hr] at hclean
      have hhash : r.hash = getLatestHash (install env st hosts).st.disk := by
        simpa [recordTamper] using hclean.2
      show recordTamper (some r) (getLatestHash d2) = true
      simp only [recordTamper, ne_eq, decide_not, Bool.not_eq_true',
        decide_eq_false_iff_not]
      intro heq
      exact hdiff (getLatestHash_inj d2 (install env st hosts).st.disk
        (by rw [← heq, hhash]))
  have hr2 := renew_tamper env
    (MkcertState.mk (install env st hosts).st.record d2) hosts hcont2 ht2
  constructor
  · rw [install_actions_eq env _ hosts hne, hr2]
    dsimp only
    rw [regenerate_actions, createCertificate_actions]
    simp [execCount]
  · rw [install_logs_eq env _ hosts hne, hr2]
    rfl

/-- Witness for C4: tampering with the key file after a successful install
makes the next identical install regenerate. -/
theorem install_tamper_regenerates_witness :
    0 < execCount (install env0
      { record := (install env0 st0 ["localhost"]).st.record,
        disk := diskTampered } ["localhost"]).actions :=
  (install_tamper_regenerates env0 st0 ["localhost"]
    { key := "newkey", cert := "newcert" } diskTampered
    (by decide) (by rfl) (by decide)).1

/-- C5: when the external command rejects, the persisted record (and the
rest of the state) keeps its previous value, and whenever a regeneration
was attempted the command's error propagates fatally as the result of
`install`. -/
theorem exec_failure_preserves_record (env : MkcertEnv) (st : MkcertState)
    (hosts : List String)
    (hfail : ∀ cmd, (env.execRun cmd).isErr = true) :
    (install env st hosts).st = st ∧
    (0 < execCount (install env st hosts).actions →
      ∃ e, env.execRun (buildCmd (getMkcertBinnary env).1 hosts) = ExecOutcome.err e ∧
        (install env st hosts).result = Except.error e) := by
  by_cases hne : hosts = []
  · subst hne
    refine ⟨by simp [install], ?_⟩
    intro h
    simp [install, execCount] at h
  · cases henv : env.execRun (buildCmd (getMkcertBinnary env).1 hosts) with
    | ok k c =>
      have := hfail (buildCmd (getMkcertBinnary env).1 hosts)
      rw [henv] at this
      simp [ExecOutcome.isErr] at this
    | err e =>
      have hreg := regenerate_fail env st hosts e henv
      cases hc : recordContains st.record hosts with
      | false =>
        have hr := renew_hosts_mismatch env st hosts hc
        refine ⟨?_, ?_⟩
        · rw [install_st_eq env st hosts hne, hr]
          exact hreg.1
        · intro _
          refine ⟨e, rfl, ?_⟩
          rw [install_nonempty env st hosts hne]
          dsimp only
          rw [hr]
          dsimp only
          rw [hreg.2]
      | true =>
        cases ht : recordTamper st.record (getLatestHash st.disk) with
        | true =>
          have hr := renew_tamper env st hosts hc ht
          refine ⟨?_, ?_⟩
          · rw [install_st_eq env st hosts hne, hr]
            exact hreg.1
          · intro _
            refine ⟨e, rfl, ?_⟩
            rw [install_nonempty env st hosts hne]
            dsimp only
            rw [hr]
            dsimp only
            rw [hreg.2]
        | false =>
          have hr := renew_clean env st hosts hc ht
          refine ⟨?_, ?_⟩
          · rw [install_st_eq env st hosts hne, hr]
          · intro h
            rw [install_actions_eq env st hosts hne, hr] at h
            simp [execCount] at h

/-- Witness for C5: with a record-less state and an always-failing command,
`install` attempts a regeneration, fails, and leaves the state untouched. -/
theorem exec_failure_preserves_record_witness :
    (install envFail st0 ["localhost"]).st = st0 :=
  (exec_failure_preserves_record envFail st0 ["localhost"] (fun _ => rfl)).1

/-- C6: when the binary exists and the comparison reports a breaking
change, `updateMkcert` only emits a diagnostic that names both the current
and the latest version and returns — no download, no version persisted;
when the comparison reports no update, the same skip happens with the
kept-latest diagnostic instead of the breaking-change one. -/
theorem updateMkcert_skips (env : ProvEnv) (st : ProvState) (si : SourceInfo)
    (hsi : env.sourceInfo = some si) :
    ((compare st.versionStore si.version).shouldUpdate = true →
      (compare st.versionStore si.version).breakingChange = true →
      updateMkcert env st true =
        { st := st,
          logs := [LogEntry.debugMsg
            (breakingChangeMsg (compare st.versionStore si.version))],
          downloaded := false, err := none } ∧
      ∃ pre mid post,
        breakingChangeMsg (compare st.versionStore si.version) =
          pre ++ (compare st.versionStore si.version).currentVersion ++ mid ++
            (compare st.versionStore si.version).nextVersion ++ post) ∧
    ((compare st.versionStore si.version).shouldUpdate = false →
      updateMkcert env st true =
        { st := st,
          logs := [LogEntry.debugMsg "Mkcert is kept latest version, update skipped"],
          downloaded := false, err := none }) := by
  constructor
  · intro hsu hbc
    constructor
    · simp [updateMkcert, hsi, hsu, hbc]
    · exact ⟨"The current version of mkcert is ", ", and the latest version is ",
        ", there may be some breaking changes, update skipped", rfl⟩
  · intro hsu
    simp [updateMkcert, hsi, hsu]

/-- Witness for C6: version 1.0.0 installed, version 2.0.0 offered — the
update is skipped with the breaking-change diagnostic. -/
theorem updateMkcert_skips_witness :
    updateMkcert provEnvBrk provStBrk true =
      { st := provStBrk,
        logs := [LogEntry.debugMsg
          (breakingChangeMsg (compare provStBrk.versionStore "2.0.0"))],
        downloaded := false, err := none } :=
  ((updateMkcert_skips provEnvBrk provStBrk
    { version := "2.0.0", downloadUrl := "https://example.com/mkcert" } rfl).1
    (by decide) (by decide)).1

/-- C7: when the source provider returns no source information,
`updateMkcert` only emits diagnostics (ending in the update-skipped one)
and returns with nothing downloaded and the state untouched, and `init`
completes without error, leaving binary presence and version store
unchanged and emitting the diagnostic whenever the update path ran. -/
theorem updateMkcert_source_absent (env : ProvEnv) (st : ProvState)
    (h : env.sourceInfo = none) :
    (∀ ex : Bool, updateMkcert env st ex =
      { st := st, logs := sourceAbsentLogs env.sourceType,
        downloaded := false, err := none }) ∧
    LogEntry.debugMsg "Can not get mkcert information, update skipped" ∈
      sourceAbsentLogs env.sourceType ∧
    (init env st).err = none ∧ (init env st).st = st ∧
    (init env st).downloaded = false ∧
    ((checkMkcert env.mkcertLocalPath env.localFileFound st.savedFileFound).1 = false →
      LogEntry.debugMsg "Can not get mkcert information, update skipped" ∈
        (init env st).logs) := by
  have hupd : ∀ ex : Bool, updateMkcert env st ex =
      { st := st, logs := sourceAbsentLogs env.sourceType,
        downloaded := false, err := none } := by
    intro ex
    simp [updateMkcert, h]
  have hmem : LogEntry.debugMsg "Can not get mkcert information, update skipped" ∈
      sourceAbsentLogs env.sourceType := by
    cases env.sourceType <;> simp [sourceAbsentLogs]
  cases hb : (env.autoUpgrade ||
      !(checkMkcert env.mkcertLocalPath env.localFileFound st.savedFileFound).1) with
  | true =>
    have hinit : init env st =
        { st := st,
          logs := (checkMkcert env.mkcertLocalPath env.localFileFound
            st.savedFileFound).2 ++ sourceAbsentLogs env.sourceType,
          downloaded := false, err := none } := by
      simp only [init, hb, if_true, hupd]
    refine ⟨hupd, hmem, ?_, ?_, ?_, ?_⟩
    · rw [hinit]
    · rw [hinit]
    · rw [hinit]
    · intro _
      rw [hinit]
      exact List.mem_append_right _ hmem
  | false =>
    have hinit : init env st =
        { st := st,
          logs := (checkMkcert env.mkcertLocalPath env.localFileFound
            st.savedFileFound).2,
          downloaded := false, err := none } := by
      simp only [init, hb, Bool.false_eq_true, if_false]
    refine ⟨hupd, hmem, ?_, ?_, ?_, ?_⟩
    · rw [hinit]
    · rw [hinit]
    · rw [hinit]
    · intro hchk
      rw [hchk] at hb
      simp at hb


/-- Witness for C7: an unreachable source with no binary installed leaves
`init` error-free with binary still absent and the diagnostic emitted. -/
theorem updateMkcert_source_absent_witness :
    (init provEnvAbsent provSt0).err = none ∧
    (init provEnvAbsent provSt0).st = provSt0 ∧
    LogEntry.debugMsg "Can not get mkcert information, update skipped" ∈
      (init provEnvAbsent provSt0).logs := by
  have h := updateMkcert_source_absent provEnvAbsent provSt0 rfl
  exact ⟨h.2.2.1, h.2.2.2.1, h.2.2.2.2.2 rfl⟩

/-- C8: when the binary does not exist and source information is available,
`updateMkcert` downloads unconditionally — for every content of the version
store — and persists the source-reported version, not a comparison
result. -/
theorem updateMkcert_absent_downloads (env : ProvEnv) (st : ProvState)
    (si : SourceInfo) (hsi : env.sourceInfo = some si) :
    (updateMkcert env st false).downloaded = true ∧
    (updateMkcert env st false).logs =
      [LogEntry.debugMsg "mkcert does not exist, download it now"] ∧
    (env.downloadOk = true →
      (updateMkcert env st false).st =
        { savedFileFound := true, versionStore := some si.version }) ∧
    (∀ vs : Option String,
      (updateMkcert env
        { savedFileFound := st.savedFileFound, versionStore := vs } false).downloaded =
        true ∧
      (env.downloadOk = true →
        (updateMkcert env
          { savedFileFound := st.savedFileFound, versionStore := vs }
          false).st.versionStore = some si.version)) := by
  cases hd : env.downloadOk with
  | true =>
    refine ⟨by simp [updateMkcert, hsi, hd], by simp [updateMkcert, hsi, hd],
      fun _ => by simp [updateMkcert, hsi, hd], fun vs =>
        ⟨by simp [updateMkcert, hsi, hd], fun _ => by simp [updateMkcert, hsi, hd]⟩⟩
  | false =>
    refine ⟨by simp [updateMkcert, hsi, hd], by simp [updateMkcert, hsi, hd],
      fun hh => absurd hh (by simp [hd]), fun vs =>
        ⟨by simp [updateMkcert, hsi, hd], fun hh => absurd hh (by simp [hd])⟩⟩

/-- Witness for C8: with no binary installed and a reachable source, the
binary is downloaded and the source version 1.4.4 is persisted. -/
theorem updateMkcert_absent_downloads_witness :
    (updateMkcert provEnvOk provSt0 false).downloaded = true ∧
    (updateMkcert provEnvOk provSt0 false).st =
      { savedFileFound := true, versionStore := some "1.4.4" } := by
  have h := updateMkcert_absent_downloads provEnvOk provSt0
    { version := "1.4.4", downloadUrl := "https://example.com/mkcert" } rfl
  exact ⟨h.1, h.2.2.1 rfl⟩

/-- Counterexample to C9: with no binary available, the attempted command's
binary token is the string "undefined" (the template-literal rendering of
an undefined value), not an empty reference — the command with an empty
binary token is never the one executed. -/
theorem createCertificate_no_binary_cmd_cx :
    (createCertificate envNoBin { keyFile := none, certFile := none }
      ["localhost"]).actions =
      [Action.ensureDir KEY_FILE_PATH, Action.ensureDir CERT_FILE_PATH,
       Action.execCmd ("undefined" ++ " -install -key-file " ++ KEY_FILE_PATH ++
         " -cert-file " ++ CERT_FILE_PATH ++ " localhost")] ∧
    Action.execCmd ("" ++ " -install -key-file " ++ KEY_FILE_PATH ++
        " -cert-file " ++ CERT_FILE_PATH ++ " localhost") ∉
      (createCertificate envNoBin { keyFile := none, certFile := none }
        ["localhost"]).actions := by
  constructor
  · rfl
  · decide

/-- C9 (amended): every regeneration performs exactly the three actions of
ensuring the parent directories of the two fixed paths and then invoking
the single command "(binary) -install -key-file (key path) -cert-file
(cert path) (hosts joined by single spaces)"; the binary token is the
resolved binary path when one is available, and when none is available the
command is still attempted with the string "undefined" as the binary
token, never silently skipped. -/
theorem createCertificate_command_shape (env : MkcertEnv) (d : Disk)
    (hostnames : List String) :
    (createCertificate env d hostnames).actions =
      [Action.ensureDir KEY_FILE_PATH, Action.ensureDir CERT_FILE_PATH,
       Action.execCmd (jsShow (getMkcertBinnary env).1 ++ " -install -key-file " ++
         KEY_FILE_PATH ++ " -cert-file " ++ CERT_FILE_PATH ++ " " ++
         String.intercalate " " hostnames)] ∧
    execCount (createCertificate env d hostnames).actions = 1 ∧
    ((getMkcertBinnary env).1 = none →
      jsShow (getMkcertBinnary env).1 = "undefined") ∧
    (∀ p, (getMkcertBinnary env).1 = some p →
      jsShow (getMkcertBinnary env).1 = p) := by
  refine ⟨createCertificate_actions env d hostnames, ?_, ?_, ?_⟩
  · rw [createCertificate_actions]
    rfl
  · intro h
    rw [h]
    rfl
  · intro p h
    rw [h]
    rfl

/-- Witness for C9 (amended): with no binary anywhere the binary token of
the attempted command renders as "undefined". -/
theorem createCertificate_command_shape_witness :
    jsShow (getMkcertBinnary envNoBin).1 = "undefined" :=
  (createCertificate_command_shape envNoBin
    { keyFile := none, certFile := none } ["localhost"]).2.2.1 rfl

end VitePluginMkcert
